import Mathlib

/-!
A verification model of the fb-jwt-client-node repository: the JWT client's
error classifier, constructor, request-options builder, dispatch pipeline
metrics/body handling, and the AES-256-CTR cipher module, shallowly embedded
as executable Lean definitions.  External collaborators (the got transport,
node's crypto hashes, base64 and UTF-8 codecs, JSON serialisation) are
modelled as parameter functions together with the contracts the repository
code relies on.
-/

namespace FBJWT

/-- JavaScript primitive values appearing in the error fields handled by the
client: strings and (status-code sized) numbers.  An absent field is
represented by Option at each use site. -/
inductive JsPrim where
  | str : String → JsPrim
  | num : Nat → JsPrim
  deriving DecidableEq

/-- JavaScript truthiness for the primitives above: the empty string and the
number 0 are falsy, everything else is truthy. -/
def JsPrim.truthy : JsPrim → Bool
  | .str s => s ≠ ""
  | .num n => n ≠ 0

/-- Model of the JavaScript expression a || b where a is a possibly absent
field: the value of a when a is present and truthy, otherwise b. -/
def jsOr : Option JsPrim → JsPrim → JsPrim
  | some v, b => if v.truthy then v else b
  | none, b => b

/-- An error object attached to a request error (err.error, or an object
err.body), carrying optional name and code fields. -/
structure ErrObj where
  name : Option JsPrim
  code : Option JsPrim
  deriving DecidableEq

/-- A response body attached to an error: either a raw string or an object
(the only case the classifier inspects). -/
inductive BodyVal where
  | str : String → BodyVal
  | obj : ErrObj → BodyVal
  deriving DecidableEq

/-- The shape of the error values reaching handleRequestError: a subset of
\x7bname, statusCode, body, error, code\x7d may be present. -/
structure JsError where
  name : Option String
  statusCode : Option Nat
  body : Option BodyVal
  error : Option ErrObj
  code : Option JsPrim
  deriving DecidableEq

/-- The error value with every field absent. -/
def JsError.empty : JsError := ⟨none, none, none, none, none⟩

/-- Truthiness of the statusCode field: present and nonzero. -/
def statusCodeTruthy : Option Nat → Bool
  | some c => c ≠ 0
  | none => false

/-- The error payload constructed by throwRequestError: the message defaults
to the code when no message was supplied or the supplied message is falsy
(JavaScript: message = message || code). -/
structure RequestFailure where
  code : JsPrim
  message : JsPrim
  deriving DecidableEq

/-- Model of FBJWTClient.prototype.throwRequestError. -/
def throwRequestError (code : JsPrim) (message : Option JsPrim) : RequestFailure :=
  ⟨code, jsOr message code⟩

/-- The outcome of handleRequestError: either the incoming error value
rethrown as-is (when its name already equals the configured error class's
name), or a newly constructed error of the configured class. -/
inductive Thrown where
  | rethrown : JsError → Thrown
  | failure : RequestFailure → Thrown
  deriving DecidableEq

/-- Model of getErrorStatusCode: classify a message into an HTTP status
code; ENOTFOUND means dns resolution failed, ECONNREFUSED means the
connection was rejected. -/
def getErrorStatusCode (message : JsPrim) : Nat :=
  if message = .str "ENOTFOUND" then 502
  else if message = .str "ECONNREFUSED" then 503
  else 500

/-- The body-to-error normalisation performed at the top of
handleRequestError: if err.body is present and is an object, it is copied
onto err.error. -/
def normalizeBody (err : JsError) : JsError :=
  match err.body with
  | some (.obj o) => { err with error := some o }
  | _ => err

/-- The message computed from an attached error object:
err.error.name || err.error.code || EUNSPECIFIED. -/
def errObjMessage (eo : ErrObj) : JsPrim :=
  jsOr eo.name (jsOr eo.code (.str "EUNSPECIFIED"))

/-- Model of FBJWTClient.prototype.handleRequestError for a client whose
configured error class has the given name. -/
def handleRequestError (errorClassName : String) (err : JsError) : Thrown :=
  if err.name = some errorClassName then
    .rethrown err
  else
    let err := normalizeBody err
    if statusCodeTruthy err.statusCode then
      let c := err.statusCode.getD 0
      if c = 404 then
        .failure (throwRequestError (.num 404) none)
      else
        .failure (throwRequestError (.num c) (err.error.map errObjMessage))
    else
      match err.error with
      | some eo =>
        let message := errObjMessage eo
        .failure (throwRequestError (.num (getErrorStatusCode message)) (some message))
      | none =>
        let message := jsOr err.code (.str "ENOERROR")
        .failure (throwRequestError (.num (getErrorStatusCode message)) (some message))

/-- The client configuration stored by a successfully constructed
FBJWTClient. -/
structure ClientConfig where
  errorClassName : String
  serviceSecret : String
  serviceToken : String
  serviceUrl : String
  serviceSlug : String
  deriving DecidableEq

/-- Model of the FBJWTClient constructor: each of the four required string
arguments is checked in order and a configuration error is thrown for the
first falsy one; on success the four strings are stored.  The optional
errorClass argument is modelled by its name, defaulting to
FBJWTClientError. -/
def mkFBJWTClient (serviceSecret serviceToken serviceSlug microserviceUrl : String)
    (errorClassName : Option String) : Except RequestFailure ClientConfig :=
  if serviceSecret = "" then
    .error (throwRequestError (.str "ENOSERVICESECRET")
      (some (.str "No service secret passed to client")))
  else if serviceToken = "" then
    .error (throwRequestError (.str "ENOSERVICETOKEN")
      (some (.str "No service token passed to client")))
  else if serviceSlug = "" then
    .error (throwRequestError (.str "ENOSERVICESLUG")
      (some (.str "No service slug passed to client")))
  else if microserviceUrl = "" then
    .error (throwRequestError (.str "ENOMICROSERVICEURL")
      (some (.str "No microservice url passed to client")))
  else
    .ok ⟨errorClassName.getD "FBJWTClientError",
      serviceSecret, serviceToken, microserviceUrl, serviceSlug⟩

/-- External collaborators of the token and request-options builders: JSON
serialisation of a payload object, the SHA-256 hex digest, JWT signing with
HMAC-SHA256, base64 of a string (Buffer toString Base64), and pathToRegexp
path compilation.  Payload objects and substitution contexts are modelled
as association lists. -/
structure HttpPrims where
  jsonStringify : List (String × String) → String
  sha256hex : String → String
  jwtSign : String → String → String
  base64 : String → String
  toPath : String → List (String × String) → String

/-- Model of FBJWTClient.prototype.generateAccessToken: sign the SHA-256
hex checksum of the JSON-serialised data with the service token. -/
def generateAccessToken (p : HttpPrims) (serviceToken : String)
    (data : List (String × String)) : String :=
  p.jwtSign (p.sha256hex (p.jsonStringify data)) serviceToken

/-- Model of FBJWTClient.prototype.createEndpointUrl: the service url
followed by the compiled path. -/
def createEndpointUrl (p : HttpPrims) (serviceUrl urlPattern : String)
    (context : List (String × String)) : String :=
  serviceUrl ++ p.toPath urlPattern context

/-- The transport request options assembled by createRequestOptions; the
searchParams field holds the single query parameter as a (name, value)
pair when present. -/
structure RequestOptions where
  url : String
  xAccessToken : String
  body : Option (List (String × String))
  searchParams : Option (String × String)
  json : Bool
  deriving DecidableEq

/-- Model of FBJWTClient.prototype.createRequestOptions. -/
def createRequestOptions (p : HttpPrims) (cfg : ClientConfig) (urlPattern : String)
    (context : List (String × String)) (data : List (String × String))
    (searchParams : Bool) : RequestOptions :=
  let accessToken := generateAccessToken p cfg.serviceToken data
  let url := createEndpointUrl p cfg.serviceUrl urlPattern context
  let hasData := data.length != 0
  { url := url
    xAccessToken := accessToken
    body := if hasData && !searchParams then some data else none
    searchParams :=
      if searchParams && hasData then
        some ("payload", p.base64 (p.jsonStringify data))
      else none
    json := true }

/-- A concrete instantiation of the external helpers, used to evaluate the
request-options builder on concrete inputs. -/
def testHttpPrims : HttpPrims :=
  ⟨fun _ => "json", id, fun a b => a ++ b, id, fun pat _ => pat⟩

/-- Model of the afterResponse hook's body defaulting:
response.body = response.body || the empty-JSON-object literal. -/
def defaultBody (body : String) : String :=
  if body = "" then "\x7b\x7d" else body

/-- The emptiness test the pipeline applies to a body string: JavaScript's
!body.trim() is truthy exactly when every character is whitespace. -/
def isBlank (s : String) : Bool :=
  s.data.all Char.isWhitespace

/-- How one delivered response resolves in send, as far as the body is
concerned: either send resolves with a parsed value, or control reaches
the failure path (api timer stop, logging, handleRequestError). -/
inductive SendBodyOutcome (α : Type) where
  | ok (v : α)
  | errorPath
  deriving DecidableEq

/-- Model of send's body handling for one delivered response: the
afterResponse hook defaults a falsy body, then the transport parses the
body as JSON (parse is the external JSON parser, returning none when it
would throw); on a parse error the catch block inspects the attached
response and converts a status below 300 with a non-empty all-whitespace
body into a successful empty-object result (emptyObj stands for the empty
object literal returned there). -/
def sendBodyResult {α : Type} (parse : String → Option α) (emptyObj : α)
    (statusCode : Nat) (body : String) : SendBodyOutcome α :=
  let b := defaultBody body
  match parse b with
  | some v => .ok v
  | none =>
    if statusCode < 300 && b != "" && isBlank b then .ok emptyObj
    else .errorPath

/-- A concrete stand-in for the external JSON parser, accepting exactly the
empty-object literal. -/
def testParse : String → Option Nat :=
  fun s => if s = "\x7b\x7d" then some 7 else none

/-- Metrics bookkeeping during one send invocation: for each per-attempt
(request) timer started so far, newest first, the number of times its end
function has been called, together with the number of end calls on the
per-call (api) timer, which send starts exactly once before awaiting the
transport. -/
structure MetricsState where
  requestTimers : List Nat
  apiEnds : Nat
  deriving DecidableEq

/-- Call the most recently created request-timer end function (the
requestMetricsEnd variable in send). -/
def endNewest : List Nat → List Nat
  | [] => []
  | c :: rest => (c + 1) :: rest

/-- The transport lifecycle hook invocations got performs during one call:
before the first attempt, before each retry, after a delivered response,
and on a terminal error. -/
inductive HookEvent where
  | beforeRequest
  | beforeRetry
  | beforeError
  | afterResponse
  deriving DecidableEq

/-- The metrics effect of each hook send installs: beforeRequest starts a
request timer; beforeRetry ends the current one when one exists (the
source guards this call with if (requestMetricsEnd)) and starts a fresh
one; beforeError and afterResponse call the current end function. -/
def applyHook (m : MetricsState) : HookEvent → MetricsState
  | .beforeRequest => { m with requestTimers := 0 :: m.requestTimers }
  | .beforeRetry =>
    { m with requestTimers :=
        match m.requestTimers with
        | [] => [0]
        | c :: rest => 0 :: (c + 1) :: rest }
  | .beforeError => { m with requestTimers := endNewest m.requestTimers }
  | .afterResponse => { m with requestTimers := endNewest m.requestTimers }

/-- How the awaited transport call ends: the promise resolves, or it
rejects with an error optionally carrying an attached response, given as
its status code and (hook-processed) body string. -/
inductive SendTerminal where
  | resolved
  | rejected (response : Option (Nat × String))
  deriving DecidableEq

/-- The metrics effect of one whole send invocation whose transport run
fires the given hook sequence and then ends as t: on resolution send ends
the api timer; in the catch block, an error whose attached response has
status below 300 and a non-empty all-whitespace body makes send call the
current request-timer end function once more and return an empty object
without ending the api timer; any other rejection ends the api timer and
reaches handleRequestError. -/
def sendMetrics (events : List HookEvent) (t : SendTerminal) : MetricsState :=
  let m := events.foldl applyHook ⟨[], 0⟩
  match t with
  | .resolved => { m with apiEnds := m.apiEnds + 1 }
  | .rejected none => { m with apiEnds := m.apiEnds + 1 }
  | .rejected (some (sc, body)) =>
    if sc < 300 && body != "" && isBlank body then
      { m with requestTimers := endNewest m.requestTimers }
    else
      { m with apiEnds := m.apiEnds + 1 }

/-- Byte sequences, as natural numbers; genuine bytes are below 256. -/
abbrev Bytes := List Nat

/-- External cryptographic and encoding primitives used by the
fb-jwt-aes256 module: SHA-256 key derivation, MD5 IV derivation, the
AES-256-CTR keystream (indexed by derived key, IV and byte position),
base64 encoding and decoding, and the string/byte-buffer conversions
performed by Buffer.from and buffer-to-string coercion. -/
structure CryptoPrims where
  sha256 : String → Bytes
  md5 : String → Bytes
  keystream : Bytes → Bytes → Nat → Nat
  b64encode : Bytes → String
  b64decode : String → Bytes
  strToBytes : String → Bytes
  bytesToStr : Bytes → String

/-- CTR-mode processing: XOR byte i of the data with keystream byte i.
Encryption and decryption are the same operation. -/
def ctrCrypt (ks : Nat → Nat) : Bytes → Nat → Bytes
  | [], _ => []
  | b :: rest, i => (b ^^^ ks i) :: ctrCrypt ks rest (i + 1)

/-- Errors thrown by the cipher module: an FBJWTAES256Error carrying an
error code, or a plain TypeError for malformed encrypted input. -/
inductive CipherError where
  | aesError (code : String)
  | typeError (msg : String)
  deriving DecidableEq

/-- Model of fb-jwt-aes256 encrypt: after the argument checks, the IV is
the MD5 digest of the seed when a truthy seed is supplied, otherwise 16
random bytes (the random draw is passed in explicitly as randomIV); the
output is the base64 of the IV followed by the CTR ciphertext under the
SHA-256-derived key. -/
def aesEncrypt (p : CryptoPrims) (randomIV : Bytes) (key plaintext : String)
    (ivSeed : Option String) : Except CipherError String :=
  if key = "" then .error (.aesError "ENOENCRYPTKEY")
  else if plaintext = "" then .error (.aesError "ENOENCRYPTVALUE")
  else
    let keyHash := p.sha256 key
    let iv := match ivSeed with
      | some s => if s ≠ "" then p.md5 s else randomIV
      | none => randomIV
    let ciphertext := ctrCrypt (p.keystream keyHash iv) (p.strToBytes plaintext) 0
    .ok (p.b64encode (iv ++ ciphertext))

/-- Model of fb-jwt-aes256 decrypt: after the argument checks, reject a
decoded input shorter than 17 bytes with a TypeError, otherwise split off
the 16-byte IV and CTR-decrypt the remainder under the SHA-256-derived
key. -/
def aesDecrypt (p : CryptoPrims) (key encrypted : String) : Except CipherError String :=
  if key = "" then .error (.aesError "ENODECRYPTKEY")
  else if encrypted = "" then .error (.aesError "ENODECRYPTVALUE")
  else
    let input := p.b64decode encrypted
    if input.length < 17 then
      .error (.typeError "Provided \"encrypted\" must decrypt to a non-empty string")
    else
      let iv := input.take 16
      let ciphertext := input.drop 16
      .ok (p.bytesToStr (ctrCrypt (p.keystream (p.sha256 key) iv) ciphertext 0))

/-- The contracts of the cipher's external primitives that the repository
code relies on: base64 decoding inverts encoding on byte sequences and
encodes non-empty byte sequences to non-empty strings; the string/byte
conversions round-trip, produce bytes below 256 and non-empty output on
non-empty strings; MD5 digests are 16 bytes below 256; keystream bytes are
below 256. -/
structure CryptoPrims.Sound (p : CryptoPrims) : Prop where
  b64_roundtrip : ∀ l : Bytes, (∀ b ∈ l, b < 256) → p.b64decode (p.b64encode l) = l
  b64_ne : ∀ l : Bytes, l ≠ [] → (∀ b ∈ l, b < 256) → p.b64encode l ≠ ""
  str_roundtrip : ∀ s : String, p.bytesToStr (p.strToBytes s) = s
  str_bytes_lt : ∀ s : String, ∀ b ∈ p.strToBytes s, b < 256
  str_ne : ∀ s : String, s ≠ "" → p.strToBytes s ≠ []
  md5_length : ∀ s : String, (p.md5 s).length = 16
  md5_bytes_lt : ∀ s : String, ∀ b ∈ p.md5 s, b < 256
  keystream_lt : ∀ k iv i, p.keystream k iv i < 256

/-- The user identity payload handled by encryptUserIdAndToken and
decryptUserIdAndToken. -/
structure UserIdToken where
  userId : String
  userToken : String
  deriving DecidableEq

/-- The external JSON codec the client wraps around the cipher:
JSON.stringify and JSON.parse at the user identity payload type. -/
structure JsonCodec where
  stringifyUser : UserIdToken → String
  parseUser : String → Option UserIdToken

/-- The contracts of the JSON codec: parsing inverts serialisation, and a
serialised object is a non-empty string. -/
structure JsonCodec.Sound (j : JsonCodec) : Prop where
  roundtrip : ∀ d, j.parseUser (j.stringifyUser d) = some d
  ne : ∀ d, j.stringifyUser d ≠ ""

/-- Model of FBJWTClient.prototype.encrypt: JSON-serialise the data and
encrypt the resulting string with the given token as key. -/
def clientEncrypt (p : CryptoPrims) (j : JsonCodec) (randomIV : Bytes)
    (token : String) (data : UserIdToken) (ivSeed : Option String) :
    Except CipherError String :=
  aesEncrypt p randomIV token (j.stringifyUser data) ivSeed

/-- Model of FBJWTClient.prototype.decrypt: decrypt then JSON-parse; a
failure in either step becomes the 500 EINVALIDPAYLOAD request error. -/
def clientDecrypt (p : CryptoPrims) (j : JsonCodec) (token encryptedData : String) :
    Except RequestFailure UserIdToken :=
  match aesDecrypt p token encryptedData with
  | .ok s =>
    match j.parseUser s with
    | some d => .ok d
    | none => .error (throwRequestError (.num 500) (some (.str "EINVALIDPAYLOAD")))
  | .error _ => .error (throwRequestError (.num 500) (some (.str "EINVALIDPAYLOAD")))

/-- Model of FBJWTClient.prototype.encryptUserIdAndToken: encrypt the
userId/userToken object under the service secret, with IV seed the
concatenation userId + userToken. -/
def encryptUserIdAndToken (p : CryptoPrims) (j : JsonCodec) (randomIV : Bytes)
    (cfg : ClientConfig) (userId userToken : String) : Except CipherError String :=
  clientEncrypt p j randomIV cfg.serviceSecret ⟨userId, userToken⟩
    (some (userId ++ userToken))

/-- Model of FBJWTClient.prototype.decryptUserIdAndToken. -/
def decryptUserIdAndToken (p : CryptoPrims) (j : JsonCodec) (cfg : ClientConfig)
    (encryptedData : String) : Except RequestFailure UserIdToken :=
  clientDecrypt p j cfg.serviceSecret encryptedData

/-- Three-byte big-endian encoding of one character's code point; all
output bytes are below 256 since code points are below 1114112. -/
def charBytes (c : Char) : Bytes :=
  [c.toNat / 65536, c.toNat / 256 % 256, c.toNat % 256]

/-- Inverse of charBytes over a flattened byte list. -/
def bytesChars : Bytes → List Char
  | a :: b :: c :: rest => Char.ofNat (a * 65536 + b * 256 + c) :: bytesChars rest
  | _ => []

/-- A concrete instantiation of the cipher's external primitives satisfying
CryptoPrims.Sound, used to evaluate the model at concrete inputs: constant
digests, a cycling keystream, and character-based codecs. -/
def testCryptoPrims : CryptoPrims where
  sha256 := fun _ => List.replicate 32 7
  md5 := fun s => List.replicate 16 (s.length % 256)
  keystream := fun _ _ i => i % 256
  b64encode := fun l => String.mk (l.map Char.ofNat)
  b64decode := fun s => s.data.map Char.toNat
  strToBytes := fun s => s.data.flatMap charBytes
  bytesToStr := fun l => String.mk (bytesChars l)

/-- A concrete JSON codec for the user identity payload satisfying
JsonCodec.Sound: a unary length marker for the first field, a separator,
then the raw contents of both fields. -/
def testJsonCodec : JsonCodec where
  stringifyUser := fun d =>
    String.mk (List.replicate d.userId.length 'x'
      ++ ':' :: (d.userId.data ++ d.userToken.data))
  parseUser := fun s =>
    let n := (s.data.takeWhile (fun c => c != ':')).length
    let rest := s.data.drop (n + 1)
    some ⟨String.mk (rest.take n), String.mk (rest.drop n)⟩

/-- A concrete client configuration for evaluating the model. -/
def testClientConfig : ClientConfig :=
  ⟨"FBJWTClientError", "testServiceSecret", "testServiceToken",
    "https://microservice", "testServiceSlug"⟩

end FBJWT

namespace FBJWT

theorem jsOr_truthy (x : Option JsPrim) (d : JsPrim) (hd : d.truthy) :
    (jsOr x d).truthy := by
  cases x with
  | none => simpa [jsOr] using hd
  | some v =>
    by_cases hv : v.truthy <;> simp [jsOr, hv, hd]

/-- C5 (confirmed): an error value whose name equals the configured error
class's name is rethrown by handleRequestError exactly as it is: the result
is the rethrown input value itself, with no re-wrapping and no field
modification. -/
theorem handleRequestError_rethrows_own (ecn : String) (err : JsError)
    (h : err.name = some ecn) :
    handleRequestError ecn err = .rethrown err := by
  simp [handleRequestError, h]

/-- Witness for C5 at a concrete error value carrying the configured error
class's name. -/
theorem handleRequestError_rethrows_own_witness :
    handleRequestError "FBJWTClientError"
        { JsError.empty with name := some "FBJWTClientError", code := some (.str "EBOOM") }
      = .rethrown { JsError.empty with name := some "FBJWTClientError", code := some (.str "EBOOM") } :=
  handleRequestError_rethrows_own "FBJWTClientError"
    { JsError.empty with name := some "FBJWTClientError", code := some (.str "EBOOM") } rfl

/-- Counterexample to C2 as stated: for an error with a status code (401)
but no attached error object and no object body, handleRequestError throws
with message equal to the status code itself, not the string EUNSPECIFIED. -/
theorem handleRequestError_statusCode_counterexample :
    handleRequestError "FBJWTClientError" { JsError.empty with statusCode := some 401 }
        = .failure ⟨.num 401, .num 401⟩ ∧
      (JsPrim.num 401 : JsPrim) ≠ .str "EUNSPECIFIED" := by
  exact ⟨rfl, by decide⟩

/-- C2 (amended): for an error that is not already of the configured class
and carries a truthy statusCode c: when c is 404 the thrown error has code
404 and message 404; otherwise, when an error object is attached (directly
or as an object body), the message is the first truthy of err.error.name
and err.error.code, else EUNSPECIFIED, with code c; and when no error
object is attached the message defaults to the status code c itself. -/
theorem statusCodeTruthy_some {c : Nat} (hc : c ≠ 0) : statusCodeTruthy (some c) = true := by
  simp [statusCodeTruthy, hc]

theorem handleRequestError_with_statusCode (ecn : String) (err : JsError) (c : Nat)
    (hname : err.name ≠ some ecn) (hsc : err.statusCode = some c) (hc : c ≠ 0) :
    (c = 404 → handleRequestError ecn err = .failure ⟨.num 404, .num 404⟩) ∧
    (c ≠ 404 → ∀ eo, (normalizeBody err).error = some eo →
      handleRequestError ecn err
        = .failure ⟨.num c, jsOr eo.name (jsOr eo.code (.str "EUNSPECIFIED"))⟩) ∧
    (c ≠ 404 → (normalizeBody err).error = none →
      handleRequestError ecn err = .failure ⟨.num c, .num c⟩) := by
  have hsb : (normalizeBody err).statusCode = err.statusCode := by
    unfold normalizeBody
    cases hb : err.body with
    | none => rfl
    | some bv => cases bv <;> rfl
  have hsc' : (normalizeBody err).statusCode = some c := hsb.trans hsc
  refine ⟨?_, ?_, ?_⟩
  · intro h404
    subst h404
    simp only [handleRequestError, if_neg hname]
    rw [hsc']
    simp [statusCodeTruthy_some hc, throwRequestError, jsOr]
  · intro hne eo heo
    have herrm : (normalizeBody err).error.map errObjMessage = some (errObjMessage eo) := by
      rw [heo]
      rfl
    simp only [handleRequestError, if_neg hname]
    rw [hsc']
    simp only [statusCodeTruthy_some hc, if_true, Option.getD_some]
    rw [if_neg hne, herrm]
    have ht : (errObjMessage eo).truthy = true :=
      jsOr_truthy _ _ (jsOr_truthy _ _ (by decide))
    simp only [throwRequestError, jsOr, ht, if_true]
    rfl
  · intro hne heo
    have herrm : (normalizeBody err).error.map errObjMessage = none := by
      rw [heo]
      rfl
    simp only [handleRequestError, if_neg hname]
    rw [hsc']
    simp only [statusCodeTruthy_some hc, if_true, Option.getD_some]
    rw [if_neg hne, herrm]
    simp [throwRequestError, jsOr]

/-- Witness for C2 (amended) at concrete inputs: status 400 with an error
object carrying only a code, and status 500 with no error object. -/
theorem handleRequestError_with_statusCode_witness :
    handleRequestError "FBJWTClientError"
        { JsError.empty with statusCode := some 400, error := some ⟨none, some (.num 409)⟩ }
      = .failure ⟨.num 400, .num 409⟩ := by
  have h := handleRequestError_with_statusCode "FBJWTClientError"
    { JsError.empty with statusCode := some 400, error := some ⟨none, some (.num 409)⟩ }
    400 (by decide) rfl (by decide)
  have h2 := h.2.1 (by decide) ⟨none, some (.num 409)⟩ rfl
  simpa [jsOr, JsPrim.truthy] using h2

/-- C3 (confirmed): for an error that is not already of the configured class
and has no statusCode field, handleRequestError throws with message the
first truthy of err.error.name and err.error.code else EUNSPECIFIED when an
error object is attached (directly or as an object body), or err.code else
ENOERROR when none is, and with code 502 when the message is ENOTFOUND, 503
when it is ECONNREFUSED, and 500 otherwise. -/
theorem handleRequestError_no_statusCode (ecn : String) (err : JsError)
    (hname : err.name ≠ some ecn) (hsc : err.statusCode = none) :
    (∀ eo, (normalizeBody err).error = some eo →
      handleRequestError ecn err
        = .failure ⟨.num (if jsOr eo.name (jsOr eo.code (.str "EUNSPECIFIED")) = .str "ENOTFOUND"
              then 502
              else if jsOr eo.name (jsOr eo.code (.str "EUNSPECIFIED")) = .str "ECONNREFUSED"
                then 503 else 500),
            jsOr eo.name (jsOr eo.code (.str "EUNSPECIFIED"))⟩) ∧
    ((normalizeBody err).error = none →
      handleRequestError ecn err
        = .failure ⟨.num (if jsOr err.code (.str "ENOERROR") = .str "ENOTFOUND" then 502
              else if jsOr err.code (.str "ENOERROR") = .str "ECONNREFUSED" then 503 else 500),
            jsOr err.code (.str "ENOERROR")⟩) := by
  have hsb : (normalizeBody err).statusCode = err.statusCode := by
    unfold normalizeBody
    cases hb : err.body with
    | none => rfl
    | some bv => cases bv <;> rfl
  have hcb : (normalizeBody err).code = err.code := by
    unfold normalizeBody
    cases hb : err.body with
    | none => rfl
    | some bv => cases bv <;> rfl
  have hst : statusCodeTruthy (normalizeBody err).statusCode = false := by
    rw [hsb, hsc]
    rfl
  constructor
  · intro eo heo
    simp only [handleRequestError, if_neg hname, hst, Bool.false_eq_true, if_false, heo]
    have ht : (errObjMessage eo).truthy = true :=
      jsOr_truthy _ _ (jsOr_truthy _ _ (by decide))
    simp only [throwRequestError, jsOr, ht, if_true]
    rfl
  · intro heo
    simp only [handleRequestError, if_neg hname, hst, Bool.false_eq_true, if_false, heo, hcb]
    generalize hg : jsOr err.code (JsPrim.str "ENOERROR") = m
    have ht : m.truthy = true := hg ▸ jsOr_truthy _ _ (by decide)
    simp only [throwRequestError, jsOr, ht, if_true]
    rfl

/-- Witness for C3 at a concrete input: a connection-refused error delivered
as an object body, which classifies to code 503. -/
theorem handleRequestError_no_statusCode_witness :
    handleRequestError "FBJWTClientError"
        { JsError.empty with body := some (.obj ⟨some (.str "ECONNREFUSED"), none⟩) }
      = .failure ⟨.num 503, .str "ECONNREFUSED"⟩ := by
  have h := (handleRequestError_no_statusCode "FBJWTClientError"
    { JsError.empty with body := some (.obj ⟨some (.str "ECONNREFUSED"), none⟩) }
    (by decide) rfl).1 ⟨some (.str "ECONNREFUSED"), none⟩ rfl
  simpa [jsOr, JsPrim.truthy] using h

/-- C9 (confirmed): the constructor fails, in order, with ENOSERVICESECRET,
ENOSERVICETOKEN, ENOSERVICESLUG, ENOMICROSERVICEURL when the corresponding
required string argument is falsy, so no client value is produced; when all
four are non-empty it succeeds and stores them. -/
theorem mkFBJWTClient_spec (secret token slug url : String) (ecn : Option String) :
    (secret = "" → mkFBJWTClient secret token slug url ecn
      = .error ⟨.str "ENOSERVICESECRET", .str "No service secret passed to client"⟩) ∧
    (secret ≠ "" → token = "" → mkFBJWTClient secret token slug url ecn
      = .error ⟨.str "ENOSERVICETOKEN", .str "No service token passed to client"⟩) ∧
    (secret ≠ "" → token ≠ "" → slug = "" → mkFBJWTClient secret token slug url ecn
      = .error ⟨.str "ENOSERVICESLUG", .str "No service slug passed to client"⟩) ∧
    (secret ≠ "" → token ≠ "" → slug ≠ "" → url = "" → mkFBJWTClient secret token slug url ecn
      = .error ⟨.str "ENOMICROSERVICEURL", .str "No microservice url passed to client"⟩) ∧
    (secret ≠ "" → token ≠ "" → slug ≠ "" → url ≠ "" →
      mkFBJWTClient secret token slug url ecn
        = .ok ⟨ecn.getD "FBJWTClientError", secret, token, url, slug⟩) := by
  refine ⟨?_, ?_, ?_, ?_, ?_⟩ <;>
    intros <;>
    simp_all [mkFBJWTClient, throwRequestError, jsOr, JsPrim.truthy]

/-- Witness for C9: a concrete successful construction storing the four
strings, and a concrete failed construction with code ENOSERVICETOKEN. -/
theorem mkFBJWTClient_spec_witness :
    mkFBJWTClient "sec" "tok" "slug" "http://svc" none
        = .ok ⟨"FBJWTClientError", "sec", "tok", "http://svc", "slug"⟩ ∧
      mkFBJWTClient "sec" "" "slug" "http://svc" none
        = .error ⟨.str "ENOSERVICETOKEN", .str "No service token passed to client"⟩ :=
  ⟨(mkFBJWTClient_spec "sec" "tok" "slug" "http://svc" none).2.2.2.2
      (by decide) (by decide) (by decide) (by decide),
    (mkFBJWTClient_spec "sec" "" "slug" "http://svc" none).2.1 (by decide) rfl⟩

/-- C8 (confirmed): createRequestOptions always sets json to true and the
x-access-token header to the access token generated from the payload; it
sets body to the payload exactly when the payload has at least one key and
useQueryParam is false, a single query parameter named payload holding the
base64 of the JSON-serialised payload when the payload has a key and
useQueryParam is true, and neither body nor searchParams when the payload
has no keys; body and searchParams are never both present. -/
theorem createRequestOptions_spec (p : HttpPrims) (cfg : ClientConfig)
    (urlPattern : String) (context data : List (String × String)) (useQueryParam : Bool) :
    (createRequestOptions p cfg urlPattern context data useQueryParam).json = true ∧
    (createRequestOptions p cfg urlPattern context data useQueryParam).xAccessToken
      = generateAccessToken p cfg.serviceToken data ∧
    (data ≠ [] → useQueryParam = false →
      (createRequestOptions p cfg urlPattern context data useQueryParam).body = some data ∧
      (createRequestOptions p cfg urlPattern context data useQueryParam).searchParams = none) ∧
    (data ≠ [] → useQueryParam = true →
      (createRequestOptions p cfg urlPattern context data useQueryParam).searchParams
        = some ("payload", p.base64 (p.jsonStringify data)) ∧
      (createRequestOptions p cfg urlPattern context data useQueryParam).body = none) ∧
    (data = [] →
      (createRequestOptions p cfg urlPattern context data useQueryParam).body = none ∧
      (createRequestOptions p cfg urlPattern context data useQueryParam).searchParams = none) ∧
    ¬((createRequestOptions p cfg urlPattern context data useQueryParam).body ≠ none ∧
      (createRequestOptions p cfg urlPattern context data useQueryParam).searchParams ≠ none) := by
  refine ⟨rfl, rfl, ?_, ?_, ?_, ?_⟩
  · intro hd hq
    subst hq
    cases data with
    | nil => exact absurd rfl hd
    | cons a l => simp [createRequestOptions]
  · intro hd hq
    subst hq
    cases data with
    | nil => exact absurd rfl hd
    | cons a l => simp [createRequestOptions]
  · intro hd
    subst hd
    simp [createRequestOptions]
  · intro ⟨hb, hs⟩
    cases data with
    | nil => exact hb (by simp [createRequestOptions])
    | cons a l =>
      cases useQueryParam with
      | false => exact hs (by simp [createRequestOptions])
      | true => exact hb (by simp [createRequestOptions])

/-- Witness for C8 at concrete inputs: a one-key payload sent as a query
parameter carries the serialised payload and no body. -/
theorem createRequestOptions_spec_witness :
    (createRequestOptions testHttpPrims ⟨"E", "sec", "tok", "http://svc", "slug"⟩
        "/foo" [] [("foo", "bar")] true).searchParams = some ("payload", "json") ∧
    (createRequestOptions testHttpPrims ⟨"E", "sec", "tok", "http://svc", "slug"⟩
        "/foo" [] [("foo", "bar")] true).body = none :=
  (createRequestOptions_spec testHttpPrims ⟨"E", "sec", "tok", "http://svc", "slug"⟩
    "/foo" [] [("foo", "bar")] true).2.2.2.1 (by decide) rfl

/-- C4 (confirmed): for a response whose body is empty or all-whitespace,
send resolves to the empty object rather than reaching the error path: an
empty body is defaulted to the empty-JSON-object literal before parsing,
and a parse error whose attached response has status below 300 and a
non-empty all-whitespace body is converted into a successful empty-object
result.  parse is the external JSON parser, assumed to parse the
empty-object literal and to fail on whitespace-only text. -/
theorem send_blank_body_resolves_empty {α : Type} (parse : String → Option α)
    (emptyObj : α) (hparse : parse "\x7b\x7d" = some emptyObj)
    (hws : ∀ s, s ≠ "" → isBlank s = true → parse s = none)
    (statusCode : Nat) (body : String)
    (hsc : statusCode < 300) (hbody : isBlank body = true) :
    sendBodyResult parse emptyObj statusCode body = .ok emptyObj ∧
    defaultBody "" = "\x7b\x7d" := by
  refine ⟨?_, rfl⟩
  by_cases hb : body = ""
  · subst hb
    simp [sendBodyResult, defaultBody, hparse]
  · have hdb : defaultBody body = body := by simp [defaultBody, hb]
    have hp : parse body = none := hws body hb hbody
    simp [sendBodyResult, hdb, hp, hsc, hb, hbody]

theorem testParse_whitespace : ∀ s, s ≠ "" → isBlank s = true → testParse s = none := by
  intro s h1 h2
  unfold testParse
  split
  · rename_i h
    subst h
    exact absurd h2 (by decide)
  · rfl

/-- Witness for C4: a 200 response whose body is a single space resolves to
the empty object under the concrete parser. -/
theorem send_blank_body_resolves_empty_witness :
    sendBodyResult testParse 7 200 " " = .ok 7 :=
  (send_blank_body_resolves_empty testParse 7 rfl testParse_whitespace
    200 " " (by decide) (by decide)).1

/-- C1 (code bug): on the whitespace-body tolerance path the timer pairing
fails: in the run where got fires beforeRequest and afterResponse and then
rejects with a parse error carrying the attached 200-status all-whitespace
response, send ends the single started request timer twice (once in the
afterResponse hook and once more in the catch block) and never ends the
api timer, contradicting the ended-exactly-once claim. -/
theorem sendMetrics_kludge_unpaired :
    sendMetrics [.beforeRequest, .afterResponse] (.rejected (some (200, " ")))
      = ⟨[2], 0⟩ := by
  rfl

theorem ctrCrypt_length (ks : Nat → Nat) (l : Bytes) (i : Nat) :
    (ctrCrypt ks l i).length = l.length := by
  induction l generalizing i with
  | nil => rfl
  | cons b rest ih => simp [ctrCrypt, ih]

theorem ctrCrypt_ctrCrypt (ks : Nat → Nat) (l : Bytes) (i : Nat) :
    ctrCrypt ks (ctrCrypt ks l i) i = l := by
  induction l generalizing i with
  | nil => rfl
  | cons b rest ih => simp [ctrCrypt, ih, Nat.xor_cancel_right]

theorem ctrCrypt_lt (ks : Nat → Nat) (hks : ∀ i, ks i < 256) (l : Bytes)
    (hl : ∀ b ∈ l, b < 256) (i : Nat) : ∀ b ∈ ctrCrypt ks l i, b < 256 := by
  induction l generalizing i with
  | nil => intro b hb; simp [ctrCrypt] at hb
  | cons a rest ih =>
    intro b hb
    simp only [ctrCrypt, List.mem_cons] at hb
    rcases hb with hb | hb
    · subst hb
      have h1 : a < 2 ^ 8 := hl a (by simp)
      have h2 : ks i < 2 ^ 8 := hks i
      exact Nat.xor_lt_two_pow h1 h2
    · exact ih (fun x hx => hl x (by simp [hx])) (i + 1) b hb

theorem aes_roundtrip_aux (p : CryptoPrims) (hp : p.Sound) (key m : String)
    (hkey : key ≠ "") (hm : m ≠ "") (riv : Bytes) (hlen : riv.length = 16)
    (hbytes : ∀ b ∈ riv, b < 256) (ivSeed : Option String) :
    ∃ enc : String, aesEncrypt p riv key m ivSeed = .ok enc ∧
      aesDecrypt p key enc = .ok m := by
  obtain ⟨iv, hivlen, hivb, henc⟩ :
      ∃ iv : Bytes, iv.length = 16 ∧ (∀ b ∈ iv, b < 256) ∧
        aesEncrypt p riv key m ivSeed
          = .ok (p.b64encode
              (iv ++ ctrCrypt (p.keystream (p.sha256 key) iv) (p.strToBytes m) 0)) := by
    cases ivSeed with
    | none => exact ⟨riv, hlen, hbytes, by simp [aesEncrypt, hkey, hm]⟩
    | some s =>
      by_cases hs : s = ""
      · exact ⟨riv, hlen, hbytes, by simp [aesEncrypt, hkey, hm, hs]⟩
      · exact ⟨p.md5 s, hp.md5_length s, hp.md5_bytes_lt s,
          by simp [aesEncrypt, hkey, hm, hs]⟩
  refine ⟨_, henc, ?_⟩
  set ct := ctrCrypt (p.keystream (p.sha256 key) iv) (p.strToBytes m) 0 with hct
  have hall : ∀ b ∈ iv ++ ct, b < 256 := by
    intro b hb
    rcases List.mem_append.mp hb with h | h
    · exact hivb b h
    · exact ctrCrypt_lt _ (fun i => hp.keystream_lt _ _ i) _ (hp.str_bytes_lt m) 0 b h
  have hne : iv ++ ct ≠ [] := by
    intro h
    have hlen0 := congrArg List.length h
    simp [hivlen] at hlen0
  have hdec : p.b64decode (p.b64encode (iv ++ ct)) = iv ++ ct := hp.b64_roundtrip _ hall
  have hsne : p.b64encode (iv ++ ct) ≠ "" := hp.b64_ne _ hne hall
  have hctlen : ct.length = (p.strToBytes m).length := ctrCrypt_length _ _ _
  have hmne : p.strToBytes m ≠ [] := hp.str_ne m hm
  have hmpos : 0 < (p.strToBytes m).length := List.length_pos.mpr hmne
  have hlenge : ¬(iv ++ ct).length < 17 := by
    simp only [List.length_append, hivlen, hctlen]
    omega
  have htake : (iv ++ ct).take 16 = iv := by
    rw [← hivlen]
    exact List.take_left iv ct
  have hdrop : (iv ++ ct).drop 16 = ct := by
    rw [← hivlen]
    exact List.drop_left iv ct
  simp only [aesDecrypt, if_neg hkey, if_neg hsne, hdec, if_neg hlenge, htake, hdrop, hct,
    ctrCrypt_ctrCrypt, hp.str_roundtrip]

theorem aes_encrypt_ok (p : CryptoPrims) (key m : String) (hkey : key ≠ "")
    (hm : m ≠ "") (riv : Bytes) :
    aesEncrypt p riv key m none
      = .ok (p.b64encode
          (riv ++ ctrCrypt (p.keystream (p.sha256 key) riv) (p.strToBytes m) 0)) := by
  simp [aesEncrypt, hkey, hm]

theorem aes_iv_distinct_aux (p : CryptoPrims) (hp : p.Sound) (key m : String)
    (hkey : key ≠ "") (hm : m ≠ "") (riv1 riv2 : Bytes)
    (h1 : riv1.length = 16) (h2 : riv2.length = 16)
    (hb1 : ∀ b ∈ riv1, b < 256) (hb2 : ∀ b ∈ riv2, b < 256)
    (hne : riv1 ≠ riv2) :
    aesEncrypt p riv1 key m none ≠ aesEncrypt p riv2 key m none := by
  intro heq
  rw [aes_encrypt_ok p key m hkey hm riv1, aes_encrypt_ok p key m hkey hm riv2] at heq
  set ct1 := ctrCrypt (p.keystream (p.sha256 key) riv1) (p.strToBytes m) 0 with hct1
  set ct2 := ctrCrypt (p.keystream (p.sha256 key) riv2) (p.strToBytes m) 0 with hct2
  have hall1 : ∀ b ∈ riv1 ++ ct1, b < 256 := by
    intro b hb
    rcases List.mem_append.mp hb with h | h
    · exact hb1 b h
    · exact ctrCrypt_lt _ (fun i => hp.keystream_lt _ _ i) _ (hp.str_bytes_lt m) 0 b h
  have hall2 : ∀ b ∈ riv2 ++ ct2, b < 256 := by
    intro b hb
    rcases List.mem_append.mp hb with h | h
    · exact hb2 b h
    · exact ctrCrypt_lt _ (fun i => hp.keystream_lt _ _ i) _ (hp.str_bytes_lt m) 0 b h
  have henc : p.b64encode (riv1 ++ ct1) = p.b64encode (riv2 ++ ct2) := by
    simpa using heq
  have hlists : riv1 ++ ct1 = riv2 ++ ct2 := by
    have hd := congrArg p.b64decode henc
    rwa [hp.b64_roundtrip _ hall1, hp.b64_roundtrip _ hall2] at hd
  apply hne
  have htk := congrArg (List.take 16) hlists
  rwa [show (riv1 ++ ct1).take 16 = riv1 from by rw [← h1]; exact List.take_left riv1 ct1,
    show (riv2 ++ ct2).take 16 = riv2 from by rw [← h2]; exact List.take_left riv2 ct2] at htk

theorem aes_seed_deterministic_aux (p : CryptoPrims) (key m seed : String)
    (hseed : seed ≠ "") (riv1 riv2 : Bytes) :
    aesEncrypt p riv1 key m (some seed) = aesEncrypt p riv2 key m (some seed) := by
  simp [aesEncrypt, hseed]

/-- C6 (confirmed): for non-empty key and message, decrypt inverts encrypt
for any IV seed; without a seed, distinct 16-byte random IV draws give
distinct ciphertexts; with the same non-empty seed the output is
independent of the random draw, hence two calls agree.  The hash,
keystream and codec primitives are external and assumed to satisfy their
contracts (CryptoPrims.Sound). -/
theorem aes_encrypt_decrypt_props (p : CryptoPrims) (hp : p.Sound) (key m : String)
    (hkey : key ≠ "") (hm : m ≠ "") :
    (∀ (riv : Bytes) (ivSeed : Option String), riv.length = 16 → (∀ b ∈ riv, b < 256) →
      (aesEncrypt p riv key m ivSeed).bind (aesDecrypt p key) = .ok m) ∧
    (∀ riv1 riv2 : Bytes, riv1.length = 16 → riv2.length = 16 →
      (∀ b ∈ riv1, b < 256) → (∀ b ∈ riv2, b < 256) → riv1 ≠ riv2 →
      aesEncrypt p riv1 key m none ≠ aesEncrypt p riv2 key m none) ∧
    (∀ (riv1 riv2 : Bytes) (seed : String), seed ≠ "" →
      aesEncrypt p riv1 key m (some seed) = aesEncrypt p riv2 key m (some seed)) := by
  refine ⟨?_, ?_, ?_⟩
  · intro riv ivSeed hlen hbytes
    obtain ⟨enc, he, hd⟩ := aes_roundtrip_aux p hp key m hkey hm riv hlen hbytes ivSeed
    rw [he]
    simpa [Except.bind] using hd
  · intro r1 r2 h1 h2 hb1 hb2 hne
    exact aes_iv_distinct_aux p hp key m hkey hm r1 r2 h1 h2 hb1 hb2 hne
  · intro r1 r2 seed hs
    exact aes_seed_deterministic_aux p key m seed hs r1 r2

/-- C7 (confirmed): encrypt rejects an empty key with ENOENCRYPTKEY and an
empty plaintext with ENOENCRYPTVALUE; decrypt rejects an empty key with
ENODECRYPTKEY and an empty input with ENODECRYPTVALUE; and when the
base64-decoded input is shorter than 17 bytes decrypt throws a TypeError,
which is not of the cipher error class. -/
theorem aes_error_codes (p : CryptoPrims) (riv : Bytes) (key m e : String)
    (ivSeed : Option String) :
    aesEncrypt p riv "" m ivSeed = .error (.aesError "ENOENCRYPTKEY") ∧
    (key ≠ "" → aesEncrypt p riv key "" ivSeed = .error (.aesError "ENOENCRYPTVALUE")) ∧
    aesDecrypt p "" e = .error (.aesError "ENODECRYPTKEY") ∧
    (key ≠ "" → aesDecrypt p key "" = .error (.aesError "ENODECRYPTVALUE")) ∧
    (key ≠ "" → e ≠ "" → (p.b64decode e).length < 17 →
      aesDecrypt p key e
          = .error (.typeError "Provided \"encrypted\" must decrypt to a non-empty string") ∧
        ∀ code, aesDecrypt p key e ≠ .error (.aesError code)) := by
  refine ⟨by simp [aesEncrypt], ?_, by simp [aesDecrypt], ?_, ?_⟩
  · intro hk
    simp [aesEncrypt, hk]
  · intro hk
    simp [aesDecrypt, hk]
  · intro hk he hlen
    have h : aesDecrypt p key e
        = .error (.typeError "Provided \"encrypted\" must decrypt to a non-empty string") := by
      simp [aesDecrypt, hk, he, hlen]
    refine ⟨h, fun code hc => ?_⟩
    rw [h] at hc
    simp at hc

theorem string_append_ne_empty_left (a b : String) (ha : a ≠ "") : a ++ b ≠ "" := by
  intro h
  apply ha
  have hdata := congrArg String.data h
  rw [String.data_append] at hdata
  have h0 : a.data = [] := (List.append_eq_nil.mp hdata).1
  cases a with
  | mk l =>
    simp at h0
    simp [h0]

/-- C10 (confirmed): encryptUserIdAndToken is deterministic, its result
independent of the random-bytes draw because the IV seed is the non-empty
concatenation userId ++ userToken, and decryptUserIdAndToken inverts it,
returning exactly the userId/userToken object, for non-empty userId,
userToken and service secret, under the external-primitive contracts. -/
theorem encryptUserIdAndToken_props (p : CryptoPrims) (j : JsonCodec)
    (hp : p.Sound) (hj : j.Sound) (cfg : ClientConfig)
    (hsecret : cfg.serviceSecret ≠ "") (userId userToken : String)
    (hu : userId ≠ "") (ht : userToken ≠ "") :
    (∀ riv1 riv2 : Bytes,
      encryptUserIdAndToken p j riv1 cfg userId userToken
        = encryptUserIdAndToken p j riv2 cfg userId userToken) ∧
    (∀ riv : Bytes,
      (encryptUserIdAndToken p j riv cfg userId userToken).map
          (decryptUserIdAndToken p j cfg)
        = .ok (.ok ⟨userId, userToken⟩)) := by
  have hseed : userId ++ userToken ≠ "" := string_append_ne_empty_left userId userToken hu
  constructor
  · intro r1 r2
    exact aes_seed_deterministic_aux p cfg.serviceSecret
      (j.stringifyUser ⟨userId, userToken⟩) (userId ++ userToken) hseed r1 r2
  · intro riv
    have hdet : encryptUserIdAndToken p j riv cfg userId userToken
        = encryptUserIdAndToken p j (List.replicate 16 0) cfg userId userToken :=
      aes_seed_deterministic_aux p cfg.serviceSecret
        (j.stringifyUser ⟨userId, userToken⟩) (userId ++ userToken) hseed riv
        (List.replicate 16 0)
    rw [hdet]
    obtain ⟨enc, he, hd⟩ := aes_roundtrip_aux p hp cfg.serviceSecret
      (j.stringifyUser ⟨userId, userToken⟩) hsecret (hj.ne _)
      (List.replicate 16 0) (by simp)
      (fun b hb => by rw [List.eq_of_mem_replicate hb]; omega)
      (some (userId ++ userToken))
    have he' : encryptUserIdAndToken p j (List.replicate 16 0) cfg userId userToken
        = .ok enc := he
    rw [he']
    simp [Except.map, decryptUserIdAndToken, clientDecrypt, hd, hj.roundtrip]

set_option maxRecDepth 4096 in
theorem char_toNat_ofNat_lt : ∀ b : Nat, b < 256 → (Char.ofNat b).toNat = b := by
  decide

theorem char_toNat_lt (c : Char) : c.toNat < 1114112 := by
  have h : c.val.toNat < 55296 ∨ (57343 < c.val.toNat ∧ c.val.toNat < 1114112) := c.valid
  show c.val.toNat < 1114112
  omega

theorem testB64_roundtrip (l : Bytes) (hl : ∀ b ∈ l, b < 256) :
    (l.map Char.ofNat).map Char.toNat = l := by
  induction l with
  | nil => rfl
  | cons b rest ih =>
    simp only [List.map_cons, List.cons.injEq]
    exact ⟨char_toNat_ofNat_lt b (hl b (by simp)), ih (fun x hx => hl x (by simp [hx]))⟩

theorem bytesChars_charBytes (c : Char) (rest : Bytes) :
    bytesChars (charBytes c ++ rest) = c :: bytesChars rest := by
  show Char.ofNat (c.toNat / 65536 * 65536 + c.toNat / 256 % 256 * 256 + c.toNat % 256)
      :: bytesChars rest = c :: bytesChars rest
  rw [show c.toNat / 65536 * 65536 + c.toNat / 256 % 256 * 256 + c.toNat % 256 = c.toNat
    from by omega, Char.ofNat_toNat]

theorem bytesChars_flatMap (l : List Char) :
    bytesChars (l.flatMap charBytes) = l := by
  induction l with
  | nil => rfl
  | cons c rest ih => rw [List.flatMap_cons, bytesChars_charBytes, ih]

theorem testCryptoPrims_sound : testCryptoPrims.Sound := by
  constructor
  · intro l hl
    exact testB64_roundtrip l hl
  · intro l hl hb heq
    apply hl
    have hdata := congrArg String.data heq
    simp only [testCryptoPrims] at hdata
    exact List.map_eq_nil_iff.mp hdata
  · intro s
    show String.mk (bytesChars (s.data.flatMap charBytes)) = s
    rw [bytesChars_flatMap]
  · intro s b hb
    show b < 256
    have hmem : ∃ c ∈ s.data, b ∈ charBytes c := List.mem_flatMap.mp hb
    obtain ⟨c, _, hbc⟩ := hmem
    have hc := char_toNat_lt c
    simp only [charBytes, List.mem_cons, List.not_mem_nil, or_false] at hbc
    rcases hbc with h | h | h <;> omega
  · intro s hs h
    apply hs
    cases s with
    | mk l =>
      cases l with
      | nil => rfl
      | cons c cs =>
        exfalso
        simp only [testCryptoPrims, List.flatMap_cons, charBytes] at h
        simp at h
  · intro s
    simp [testCryptoPrims]
  · intro s b hb
    have := List.eq_of_mem_replicate hb
    subst this
    exact Nat.mod_lt _ (by omega)
  · intro k iv i
    exact Nat.mod_lt _ (by omega)

theorem takeWhile_marker_sep (n : Nat) (tail : List Char) :
    (List.replicate n 'x' ++ ':' :: tail).takeWhile (fun c => c != ':')
      = List.replicate n 'x' := by
  induction n with
  | zero => simp [List.takeWhile_cons]
  | succ k ih => simp [List.replicate, List.takeWhile_cons, ih]

theorem drop_marker_sep (n : Nat) (tail : List Char) :
    (List.replicate n 'x' ++ ':' :: tail).drop (n + 1) = tail := by
  induction n with
  | zero => rfl
  | succ k ih => simpa [List.replicate] using ih

theorem testJsonCodec_sound : testJsonCodec.Sound := by
  constructor
  · intro d
    cases d with
    | mk uid utok =>
      simp only [testJsonCodec, takeWhile_marker_sep, List.length_replicate,
        drop_marker_sep]
      rw [show uid.length = uid.data.length from rfl, List.take_left, List.drop_left]
  · intro d heq
    have hdata := congrArg String.data heq
    simp [testJsonCodec] at hdata

/-- Witness for C6 at concrete primitives and inputs: a round-trip with a
concrete 16-byte IV, and distinct ciphertexts for two distinct IVs. -/
theorem aes_encrypt_decrypt_props_witness :
    (aesEncrypt testCryptoPrims (List.replicate 16 0) "k" "m" none).bind
        (aesDecrypt testCryptoPrims "k") = .ok "m" ∧
    aesEncrypt testCryptoPrims (List.replicate 16 0) "k" "m" none
      ≠ aesEncrypt testCryptoPrims (List.replicate 16 1) "k" "m" none :=
  have h := aes_encrypt_decrypt_props testCryptoPrims testCryptoPrims_sound "k" "m"
    (by decide) (by decide)
  ⟨h.1 (List.replicate 16 0) none (by simp)
      (fun b hb => by rw [List.eq_of_mem_replicate hb]; omega),
    h.2.1 (List.replicate 16 0) (List.replicate 16 1) (by simp) (by simp)
      (fun b hb => by rw [List.eq_of_mem_replicate hb]; omega)
      (fun b hb => by rw [List.eq_of_mem_replicate hb]; omega)
      (by decide)⟩

/-- Witness for C7 at concrete primitives and inputs: the empty-key error
and the short-decoded-input TypeError. -/
theorem aes_error_codes_witness :
    aesEncrypt testCryptoPrims [] "" "m" none = .error (.aesError "ENOENCRYPTKEY") ∧
    aesDecrypt testCryptoPrims "k" "a"
      = .error (.typeError "Provided \"encrypted\" must decrypt to a non-empty string") :=
  have h := aes_error_codes testCryptoPrims [] "k" "m" "a" none
  ⟨h.1, (h.2.2.2.2 (by decide) (by decide) (by decide)).1⟩

/-- Witness for C10 at concrete primitives and inputs: the ciphertext is
independent of the random draw and decrypts back to the concrete
userId/userToken pair. -/
theorem encryptUserIdAndToken_props_witness :
    (encryptUserIdAndToken testCryptoPrims testJsonCodec [] testClientConfig "u" "t"
      = encryptUserIdAndToken testCryptoPrims testJsonCodec (List.replicate 16 9)
          testClientConfig "u" "t") ∧
    (encryptUserIdAndToken testCryptoPrims testJsonCodec [] testClientConfig "u" "t").map
        (decryptUserIdAndToken testCryptoPrims testJsonCodec testClientConfig)
      = .ok (.ok ⟨"u", "t"⟩) :=
  have h := encryptUserIdAndToken_props testCryptoPrims testJsonCodec
    testCryptoPrims_sound testJsonCodec_sound testClientConfig (by decide) "u" "t"
    (by decide) (by decide)
  ⟨h.1 [] (List.replicate 16 9), h.2 []⟩

end FBJWT
